import Mathlib

/-
Verification development for the face-matching core of the
forensic-face-recognition repository.

Embedded source files:
  * src/core/face_recognition_engine.py (FaceRecognitionEngine:
    get_face_encoding_from_cv2, _create_face_encoding,
    calculate_similarity, recognize_face)
  * src/core/batch_processor.py (BatchProcessor.run,
    BatchProcessor._process_single_image, BatchProcessor.cancel)

Modelling conventions:
  * Python floats are idealised as real numbers (exact arithmetic; the
    degenerate NaN/inf float cases, which arise only for empty encodings,
    are outside every claim considered here).
  * numpy 1-D arrays are lists of reals; numpy raising ValueError on a
    non-broadcastable elementwise subtraction is an Except.error.
  * Image I/O (cv2.imread), the Haar-cascade detector and the cv2 HOG
    descriptor are external capabilities; they enter the model as
    explicit arguments (the extraction result, the detected rectangle
    list, the HOG feature vector) exactly where the engine consumes them.
-/

namespace FFR

/-! ## Encodings and the similarity scorer
    (FaceRecognitionEngine.calculate_similarity, lines 138-154) -/

/-- A face encoding: a 1-D numpy array of floats, modelled as a list of
reals. -/
abbrev Encoding := List ℝ

/-- The error message numpy produces when two arrays cannot be broadcast
together (ValueError). -/
def broadcastErrMsg : String := "ValueError: operands could not be broadcast together"

/-- Elementwise subtraction of two 1-D numpy arrays, with numpy style
broadcasting: equal lengths subtract pointwise, a length-1 array
broadcasts against the other, anything else raises (modelled as none). -/
def broadcastSub (a b : List ℝ) : Option (List ℝ) :=
  if a.length = b.length then some (List.zipWith (fun x y => x - y) a b)
  else if a.length = 1 then some (b.map (fun y => a.headI - y))
  else if b.length = 1 then some (a.map (fun x => x - b.headI))
  else none

/-- Euclidean norm of an array (np.linalg.norm). -/
noncomputable def l2norm (v : List ℝ) : ℝ :=
  Real.sqrt ((v.map (fun x => x ^ 2)).sum)

/-- FaceRecognitionEngine.calculate_similarity.  Returns 0.0 when either
encoding is None; otherwise computes the Euclidean distance of the
(broadcast) difference, normalises by sqrt of the FIRST encoding's
length, and returns max(0, (1 - normalized_distance) * 100).  A
non-broadcastable pair makes numpy raise, modelled as an error. -/
noncomputable def calculate_similarity (encoding1 encoding2 : Option Encoding) :
    Except String ℝ :=
  match encoding1, encoding2 with
  | none, _ => .ok 0
  | _, none => .ok 0
  | some a, some b =>
    match broadcastSub a b with
    | none => .error broadcastErrMsg
    | some d =>
      .ok (max 0 ((1 - l2norm d / Real.sqrt (a.length : ℝ)) * 100))

/-! ## Gallery entries and recognition results
    (FaceRecognitionEngine.recognize_face, lines 156-212) -/

/-- One entry of known_encodings_dict: a dict with an 'encoding' key
(None allowed) and optional 'name' / 'criminal_id' / 'criminal_code'
keys read through dict.get. -/
structure KnownFace where
  nameField : Option String
  encoding : Option Encoding
  criminal_id : Option Nat
  criminal_code : Option String

/-- The result dict of recognize_face.  The matched branch carries a
'criminal_code' key and the no-match branch does not; both are folded
into one record with criminal_code = none standing for key-absent. -/
structure RecognitionResult where
  matched : Bool
  name : String
  confidence : ℝ
  criminal_id : Option Nat
  criminal_code : Option String

/-- The no-match result dict:
matched=False, name="Unknown", confidence=0.0, criminal_id=None. -/
def noMatchResult : RecognitionResult :=
  ⟨false, "Unknown", (0 : ℝ), none, none⟩

/-- The best-match scan of recognize_face (lines 184-196): fold over the
gallery keeping (best_match, best_similarity), starting from
(None, 0.0); entries whose encoding is None are skipped; an entry
replaces the running best only when
similarity > best_similarity and similarity >= tolerance * 100.
An exception from calculate_similarity propagates. -/
noncomputable def scanGallery (test : Encoding) (tolerance : ℝ) :
    List KnownFace → Option KnownFace × ℝ → Except String (Option KnownFace × ℝ)
  | [], acc => .ok acc
  | kf :: rest, (best_match, best_similarity) =>
    match kf.encoding with
    | none => scanGallery test tolerance rest (best_match, best_similarity)
    | some enc =>
      match calculate_similarity (some test) (some enc) with
      | .error msg => .error msg
      | .ok similarity =>
        if similarity > best_similarity ∧ similarity ≥ tolerance * 100 then
          scanGallery test tolerance rest (some kf, similarity)
        else
          scanGallery test tolerance rest (best_match, best_similarity)

/-- FaceRecognitionEngine.recognize_face, modelled from the point after
probe extraction: encode_face performs image I/O (cv2.imread) and yields
None on failure, so the extraction outcome is the test_encoding
argument.  The Python default for tolerance is 0.6 (threshold 60.0). -/
noncomputable def recognize_face (test_encoding : Option Encoding)
    (known_encodings_dict : List KnownFace) (tolerance : ℝ) :
    Except String RecognitionResult :=
  match test_encoding with
  | none => .ok noMatchResult
  | some test =>
    match known_encodings_dict with
    | [] => .ok noMatchResult
    | _ :: _ =>
      match scanGallery test tolerance known_encodings_dict (none, 0) with
      | .error msg => .error msg
      | .ok (none, _) => .ok noMatchResult
      | .ok (some best_match, best_similarity) =>
        .ok ⟨true, best_match.nameField.getD "Unknown", best_similarity,
             best_match.criminal_id, best_match.criminal_code⟩

/-- A gallery entry qualifies with similarity s: it has a non-null
encoding whose similarity to the probe computes to s with
s >= tolerance * 100. -/
def qualSim (test : Encoding) (tolerance : ℝ) (kf : KnownFace) (s : ℝ) : Prop :=
  ∃ enc, kf.encoding = some enc ∧
    calculate_similarity (some test) (some enc) = .ok s ∧ tolerance * 100 ≤ s

theorem qualSim_unique {test : Encoding} {tolerance : ℝ} {kf : KnownFace}
    {enc : Encoding} {s s2 : ℝ}
    (henc : kf.encoding = some enc)
    (hsim : calculate_similarity (some test) (some enc) = .ok s)
    (h : qualSim test tolerance kf s2) : s2 = s := by
  obtain ⟨enc2, henc2, hsim2, _⟩ := h
  rw [henc] at henc2
  cases henc2
  rw [hsim] at hsim2
  cases hsim2
  rfl

/-- Full characterisation of a completed scan starting from state
(bm0, bs0): either no entry ever replaced the running best (and every
qualifying similarity is at most bs0), or the gallery splits around the
finally-selected entry, whose similarity is the final best, strictly
above bs0, strictly above every qualifying similarity before it (first
seen wins ties) and at least every qualifying similarity after it. -/
theorem scanGallery_ok_spec (test : Encoding) (tolerance : ℝ) :
    ∀ (gallery : List KnownFace) (bm0 : Option KnownFace) (bs0 : ℝ)
      (bm : Option KnownFace) (bs : ℝ),
      scanGallery test tolerance gallery (bm0, bs0) = .ok (bm, bs) →
      (bm = bm0 ∧ bs = bs0 ∧
        ∀ kf ∈ gallery, ∀ s, qualSim test tolerance kf s → s ≤ bs0) ∨
      (∃ l1 kf l2, gallery = l1 ++ kf :: l2 ∧ bm = some kf ∧
        qualSim test tolerance kf bs ∧ bs0 < bs ∧
        (∀ kf2 ∈ l1, ∀ s, qualSim test tolerance kf2 s → s < bs) ∧
        (∀ kf2 ∈ l2, ∀ s, qualSim test tolerance kf2 s → s ≤ bs)) := by
  intro gallery
  induction gallery with
  | nil =>
    intro bm0 bs0 bm bs h
    simp only [scanGallery, Except.ok.injEq, Prod.mk.injEq] at h
    exact Or.inl ⟨h.1.symm, h.2.symm, by simp⟩
  | cons kf rest ih =>
    intro bm0 bs0 bm bs h
    cases henc : kf.encoding with
    | none =>
      simp only [scanGallery, henc] at h
      rcases ih bm0 bs0 bm bs h with ⟨h1, h2, h3⟩ |
        ⟨l1, kfx, l2, heq, hbm, hq, hlt, hpre, hpost⟩
      · refine Or.inl ⟨h1, h2, ?_⟩
        intro kf2 hmem s hqs
        rcases List.mem_cons.1 hmem with rfl | hmem2
        · obtain ⟨enc, henc2, _, _⟩ := hqs
          rw [henc] at henc2
          cases henc2
        · exact h3 kf2 hmem2 s hqs
      · refine Or.inr ⟨kf :: l1, kfx, l2, by rw [heq]; rfl, hbm, hq, hlt, ?_, hpost⟩
        intro kf2 hmem s hqs
        rcases List.mem_cons.1 hmem with rfl | hmem2
        · obtain ⟨enc, henc2, _, _⟩ := hqs
          rw [henc] at henc2
          cases henc2
        · exact hpre kf2 hmem2 s hqs
    | some enc =>
      cases hsim : calculate_similarity (some test) (some enc) with
      | error msg =>
        simp only [scanGallery, henc, hsim] at h
        exact absurd h (by simp)
      | ok s =>
        simp only [scanGallery, henc, hsim] at h
        by_cases hcond : s > bs0 ∧ s ≥ tolerance * 100
        · rw [if_pos hcond] at h
          rcases ih (some kf) s bm bs h with ⟨h1, h2, h3⟩ |
            ⟨l1, kfx, l2, heq, hbm, hq, hlt, hpre, hpost⟩
          · subst h2
            refine Or.inr ⟨[], kf, rest, rfl, h1, ⟨enc, henc, hsim, hcond.2⟩,
              hcond.1, by simp, ?_⟩
            intro kf2 hmem s2 hq2
            exact h3 kf2 hmem s2 hq2
          · refine Or.inr ⟨kf :: l1, kfx, l2, by rw [heq]; rfl, hbm, hq,
              lt_trans hcond.1 hlt, ?_, hpost⟩
            intro kf2 hmem s2 hq2
            rcases List.mem_cons.1 hmem with rfl | hmem2
            · have hs2 : s2 = s := qualSim_unique henc hsim hq2
              rw [hs2]
              exact hlt
            · exact hpre kf2 hmem2 s2 hq2
        · rw [if_neg hcond] at h
          rcases ih bm0 bs0 bm bs h with ⟨h1, h2, h3⟩ |
            ⟨l1, kfx, l2, heq, hbm, hq, hlt, hpre, hpost⟩
          · refine Or.inl ⟨h1, h2, ?_⟩
            intro kf2 hmem s2 hq2
            rcases List.mem_cons.1 hmem with rfl | hmem2
            · have hs2 : s2 = s := qualSim_unique henc hsim hq2
              obtain ⟨_, _, _, hthr⟩ := hq2
              by_contra hgt
              push_neg at hgt
              rw [hs2] at hgt
              exact hcond ⟨hgt, hs2 ▸ hthr⟩
            · exact h3 kf2 hmem2 s2 hq2
          · refine Or.inr ⟨kf :: l1, kfx, l2, by rw [heq]; rfl, hbm, hq, hlt, ?_, hpost⟩
            intro kf2 hmem s2 hq2
            rcases List.mem_cons.1 hmem with rfl | hmem2
            · have hs2 : s2 = s := qualSim_unique henc hsim hq2
              obtain ⟨_, _, _, hthr⟩ := hq2
              have hle : s2 ≤ bs0 := by
                by_contra hgt
                push_neg at hgt
                rw [hs2] at hgt
                exact hcond ⟨hgt, hs2 ▸ hthr⟩
              exact lt_of_le_of_lt hle hlt
            · exact hpre kf2 hmem2 s2 hq2

/-- C1: for every probe encoding, gallery list and threshold, the
single-best search of recognize_face considers a gallery entry a
candidate only if its similarity is at least tolerance * 100 (60.0 for
the default tolerance 0.6), keeps the strictly-greatest similarity seen
so far (first-seen entry wins ties, since the comparison is strict), and
never returns a matched result whose similarity is below the
threshold: a matched result's confidence is at least the threshold, is
the similarity of a gallery entry that strictly exceeds the similarity
of every qualifying entry before it and is at least the similarity of
every qualifying entry anywhere in the gallery. -/
theorem recognize_face_single_best (test : Encoding) (gallery : List KnownFace)
    (tolerance : ℝ) (r : RecognitionResult)
    (h : recognize_face (some test) gallery tolerance = .ok r)
    (hm : r.matched = true) :
    tolerance * 100 ≤ r.confidence ∧
    ∃ l1 kf l2, gallery = l1 ++ kf :: l2 ∧
      r.name = kf.nameField.getD "Unknown" ∧
      r.criminal_id = kf.criminal_id ∧
      qualSim test tolerance kf r.confidence ∧
      (∀ kf2 ∈ l1, ∀ s, qualSim test tolerance kf2 s → s < r.confidence) ∧
      (∀ kf2 ∈ gallery, ∀ s, qualSim test tolerance kf2 s → s ≤ r.confidence) := by
  cases gallery with
  | nil =>
    simp only [recognize_face, Except.ok.injEq] at h
    rw [← h, noMatchResult] at hm
    exact absurd hm (by simp)
  | cons g gs =>
    simp only [recognize_face] at h
    cases hscan : scanGallery test tolerance (g :: gs) (none, 0) with
    | error msg =>
      rw [hscan] at h
      exact absurd h (by simp)
    | ok p =>
      obtain ⟨bm, bs⟩ := p
      rw [hscan] at h
      cases bm with
      | none =>
        simp only [Except.ok.injEq] at h
        rw [← h, noMatchResult] at hm
        exact absurd hm (by simp)
      | some best =>
        simp only [Except.ok.injEq] at h
        rcases scanGallery_ok_spec test tolerance (g :: gs) none 0 (some best) bs hscan
          with ⟨h1, _, _⟩ | ⟨l1, kf, l2, heq, hbm, hq, _, hpre, hpost⟩
        · exact absurd h1 (by simp)
        · rw [Option.some.injEq] at hbm
          subst hbm
          subst h
          obtain ⟨enc, hencq, hsimq, hthr⟩ := hq
          refine ⟨hthr, l1, best, l2, heq, rfl, rfl, ⟨enc, hencq, hsimq, hthr⟩, hpre, ?_⟩
          intro kf2 hmem s hqs
          rw [heq] at hmem
          rcases List.mem_append.1 hmem with hmem1 | hmem2
          · exact le_of_lt (hpre kf2 hmem1 s hqs)
          · rcases List.mem_cons.1 hmem2 with rfl | hmem3
            · rw [qualSim_unique hencq hsimq hqs]
            · exact hpost kf2 hmem3 s hqs

/-- A one-entry gallery used by concrete witnesses: name "A",
encoding [0], criminal_id 1. -/
def kfA : KnownFace := ⟨some "A", some [(0 : ℝ)], some 1, none⟩

/-- The matched result produced by searching [kfA] with probe [0]. -/
def resA : RecognitionResult := ⟨true, "A", 100, some 1, none⟩

theorem similarity_zero_zero :
    calculate_similarity (some [(0 : ℝ)]) (some [(0 : ℝ)]) = .ok 100 := by
  simp only [calculate_similarity, broadcastSub, l2norm]
  norm_num [Real.sqrt_one]

theorem recognize_face_kfA :
    recognize_face (some [(0 : ℝ)]) [kfA] 0.6 = .ok resA := by
  have henc : kfA.encoding = some [(0 : ℝ)] := rfl
  simp only [recognize_face, scanGallery, henc, similarity_zero_zero]
  rw [if_pos (by norm_num)]
  simp only [scanGallery, Except.ok.injEq]
  rfl

/-- C1 witness: the hypotheses of recognize_face_single_best hold for
the concrete probe [0], gallery [kfA] and tolerance 0.6, and the
theorem's conclusion follows there. -/
theorem recognize_face_single_best_witness :
    (recognize_face (some [(0 : ℝ)]) [kfA] 0.6 = .ok resA ∧ resA.matched = true) ∧
    ((0.6 : ℝ) * 100 ≤ resA.confidence ∧
      ∃ l1 kf l2, [kfA] = l1 ++ kf :: l2 ∧
        resA.name = kf.nameField.getD "Unknown" ∧
        resA.criminal_id = kf.criminal_id ∧
        qualSim [(0 : ℝ)] 0.6 kf resA.confidence ∧
        (∀ kf2 ∈ l1, ∀ s, qualSim [(0 : ℝ)] 0.6 kf2 s → s < resA.confidence) ∧
        (∀ kf2 ∈ [kfA], ∀ s, qualSim [(0 : ℝ)] 0.6 kf2 s → s ≤ resA.confidence)) :=
  ⟨⟨recognize_face_kfA, rfl⟩,
    recognize_face_single_best [(0 : ℝ)] [kfA] 0.6 resA recognize_face_kfA rfl⟩

/-- A one-entry gallery whose entry scores similarity 0 against the
probe [0]: name "B", encoding [1], criminal_id 2. -/
def kfB : KnownFace := ⟨some "B", some [(1 : ℝ)], some 2, none⟩

/-- galC2 is the gallery [kfB]. -/
def galC2 : List KnownFace := [kfB]

theorem similarity_zero_one :
    calculate_similarity (some [(0 : ℝ)]) (some [(1 : ℝ)]) = .ok 0 := by
  simp only [calculate_similarity, broadcastSub, l2norm]
  norm_num [Real.sqrt_one]

/-- C2 counterexample: at threshold 0 (tolerance 0) with probe [0] and
gallery [kfB], the probe extraction succeeded, the gallery is nonempty,
and a gallery candidate reaches the threshold (its similarity 0 is at
least 0), yet recognize_face still returns the NoMatch value, because
the scan comparison similarity > best_similarity starts from 0.0 and is
strict.  So NoMatch does not occur in exactly the three claimed
situations. -/
theorem recognize_face_noMatch_cases_counterexample :
    recognize_face (some [(0 : ℝ)]) galC2 0 = .ok noMatchResult ∧
    (some [(0 : ℝ)] : Option Encoding) ≠ none ∧
    galC2 ≠ [] ∧
    ∃ kf ∈ galC2, ∃ s, qualSim [(0 : ℝ)] 0 kf s := by
  have henc : kfB.encoding = some [(1 : ℝ)] := rfl
  refine ⟨?_, by simp, by simp [galC2], kfB, by simp [galC2], 0,
    [(1 : ℝ)], henc, similarity_zero_one, by norm_num⟩
  simp only [recognize_face, galC2, scanGallery, henc, similarity_zero_one]
  rw [if_neg (by norm_num)]

/-- C2 amended: assuming the effective threshold tolerance * 100 is
positive (it is 60.0 at the default tolerance 0.6) and the call returns
a value rather than propagating an exception, recognize_face returns
the NoMatch value exactly when probe extraction failed, or the gallery
is empty, or no gallery candidate reaches the threshold; in particular
searching an empty gallery returns NoMatch rather than raising. -/
theorem recognize_face_noMatch_cases (test_encoding : Option Encoding)
    (gallery : List KnownFace) (tolerance : ℝ) (r : RecognitionResult)
    (hpos : 0 < tolerance * 100)
    (h : recognize_face test_encoding gallery tolerance = .ok r) :
    r = noMatchResult ↔
      (test_encoding = none ∨ gallery = [] ∨
        ∀ test, test_encoding = some test →
          ∀ kf ∈ gallery, ∀ s, qualSim test tolerance kf s → False) := by
  constructor
  · intro hr
    rw [hr] at h
    cases test_encoding with
    | none => exact Or.inl rfl
    | some test =>
      cases gallery with
      | nil => exact Or.inr (Or.inl rfl)
      | cons g gs =>
        refine Or.inr (Or.inr ?_)
        intro t ht kf hmem s hq
        rw [Option.some.injEq] at ht
        subst ht
        simp only [recognize_face] at h
        cases hscan : scanGallery test tolerance (g :: gs) (none, 0) with
        | error msg =>
          rw [hscan] at h
          exact absurd h (by simp)
        | ok p =>
          obtain ⟨bm, bs⟩ := p
          rw [hscan] at h
          cases bm with
          | some best =>
            simp only [Except.ok.injEq] at h
            exact absurd (congrArg RecognitionResult.matched h) (by simp [noMatchResult])
          | none =>
            rcases scanGallery_ok_spec test tolerance (g :: gs) none 0 none bs hscan
              with ⟨_, _, h3⟩ | ⟨l1, kfx, l2, _, hbm, _, _, _, _⟩
            · have hle : s ≤ 0 := h3 kf hmem s hq
              obtain ⟨_, _, _, hthr⟩ := hq
              linarith
            · exact absurd hbm (by simp)
  · intro hcase
    rcases hcase with hnone | hnil | hnoq
    · subst hnone
      simp only [recognize_face, Except.ok.injEq] at h
      exact h.symm
    · subst hnil
      cases test_encoding with
      | none =>
        simp only [recognize_face, Except.ok.injEq] at h
        exact h.symm
      | some test =>
        simp only [recognize_face, Except.ok.injEq] at h
        exact h.symm
    · cases test_encoding with
      | none =>
        simp only [recognize_face, Except.ok.injEq] at h
        exact h.symm
      | some test =>
        cases gallery with
        | nil =>
          simp only [recognize_face, Except.ok.injEq] at h
          exact h.symm
        | cons g gs =>
          simp only [recognize_face] at h
          cases hscan : scanGallery test tolerance (g :: gs) (none, 0) with
          | error msg =>
            rw [hscan] at h
            exact absurd h (by simp)
          | ok p =>
            obtain ⟨bm, bs⟩ := p
            rw [hscan] at h
            cases bm with
            | none =>
              simp only [Except.ok.injEq] at h
              exact h.symm
            | some best =>
              exfalso
              rcases scanGallery_ok_spec test tolerance (g :: gs) none 0 (some best) bs
                hscan with ⟨h1, _, _⟩ | ⟨l1, kfx, l2, heq, _, hq, _, _, _⟩
              · exact absurd h1 (by simp)
              · exact hnoq test rfl kfx
                  (by rw [heq]; exact List.mem_append_right _ (List.mem_cons_self _ _))
                  bs hq

theorem recognize_face_galC2_default :
    recognize_face (some [(0 : ℝ)]) galC2 0.6 = .ok noMatchResult := by
  have henc : kfB.encoding = some [(1 : ℝ)] := rfl
  simp only [recognize_face, galC2, scanGallery, henc, similarity_zero_one]
  rw [if_neg (by norm_num)]

/-- C2 witness: the amended statement instantiated at the default
tolerance 0.6 with probe [0] and gallery [kfB], whose single candidate
scores 0 and so does not reach the threshold 60. -/
theorem recognize_face_noMatch_cases_witness :
    ((0 : ℝ) < 0.6 * 100 ∧
      recognize_face (some [(0 : ℝ)]) galC2 0.6 = .ok noMatchResult) ∧
    (noMatchResult = noMatchResult ↔
      ((some [(0 : ℝ)] : Option Encoding) = none ∨ galC2 = [] ∨
        ∀ test, (some [(0 : ℝ)] : Option Encoding) = some test →
          ∀ kf ∈ galC2, ∀ s, qualSim test 0.6 kf s → False)) :=
  ⟨⟨by norm_num, recognize_face_galC2_default⟩,
    recognize_face_noMatch_cases (some [(0 : ℝ)]) galC2 0.6 noMatchResult
      (by norm_num) recognize_face_galC2_default⟩

/-- C3 counterexample: two non-null encodings of mismatched lengths 2
and 3 do not yield similarity 0.0 — the numpy subtraction cannot
broadcast them, so calculate_similarity raises a ValueError instead of
returning. -/
theorem calculate_similarity_mismatch_counterexample :
    ([(0 : ℝ), 0] : Encoding).length ≠ ([(0 : ℝ), 0, 0] : Encoding).length ∧
    calculate_similarity (some [(0 : ℝ), 0]) (some [(0 : ℝ), 0, 0]) =
      .error broadcastErrMsg ∧
    calculate_similarity (some [(0 : ℝ), 0]) (some [(0 : ℝ), 0, 0]) ≠
      .ok 0 := by
  refine ⟨by simp, ?_, ?_⟩
  · simp [calculate_similarity, broadcastSub]
  · simp [calculate_similarity, broadcastSub]

/-- C3 amended: if either input is null, calculate_similarity returns
0.0 without failing; but two non-null encodings of mismatched lengths
raise a numpy broadcast error (unless one of them has length 1, in
which case numpy broadcasting applies) rather than returning 0.0. -/
theorem calculate_similarity_null_and_mismatch (a b : Option Encoding)
    (x y : Encoding) :
    calculate_similarity none b = .ok 0 ∧
    calculate_similarity a none = .ok 0 ∧
    (x.length ≠ y.length → x.length ≠ 1 → y.length ≠ 1 →
      calculate_similarity (some x) (some y) = .error broadcastErrMsg) := by
  refine ⟨?_, ?_, ?_⟩
  · cases b <;> rfl
  · cases a <;> rfl
  · intro h1 h2 h3
    simp only [calculate_similarity, broadcastSub, if_neg h1, if_neg h2, if_neg h3]

/-- C3 witness: the null cases return 0.0, and the concrete mismatched
pair of lengths 2 and 3 (neither equal to 1) raises. -/
theorem calculate_similarity_null_and_mismatch_witness :
    (([(0 : ℝ), 0] : Encoding).length ≠ ([(0 : ℝ), 0, 0] : Encoding).length ∧
      ([(0 : ℝ), 0] : Encoding).length ≠ 1 ∧
      ([(0 : ℝ), 0, 0] : Encoding).length ≠ 1) ∧
    (calculate_similarity none (some [(1 : ℝ)]) = .ok 0 ∧
      calculate_similarity (some [(1 : ℝ)]) none = .ok 0 ∧
      calculate_similarity (some [(0 : ℝ), 0]) (some [(0 : ℝ), 0, 0]) =
        .error broadcastErrMsg) := by
  have h := calculate_similarity_null_and_mismatch (some [(1 : ℝ)])
    (some [(1 : ℝ)]) [(0 : ℝ), 0] [(0 : ℝ), 0, 0]
  exact ⟨⟨by simp, by simp, by simp⟩,
    h.1, h.2.1, h.2.2 (by simp) (by simp) (by simp)⟩

/-- C10: recognize_face returns the identical value
(matched = false, name = "Unknown", confidence = 0.0,
criminal_id = None) both when probe extraction failed and when the list
of known encodings is empty, so a caller cannot distinguish the two
situations from the returned value alone. -/
theorem recognize_face_noMatch_indistinguishable (gallery : List KnownFace)
    (tolerance : ℝ) (e : Encoding) :
    recognize_face none gallery tolerance = .ok noMatchResult ∧
    recognize_face (some e) [] tolerance = .ok noMatchResult ∧
    recognize_face none gallery tolerance = recognize_face (some e) [] tolerance ∧
    noMatchResult = ⟨false, "Unknown", 0, none, none⟩ :=
  ⟨rfl, rfl, rfl, rfl⟩

/-! ## Feature extraction
    (FaceRecognitionEngine._create_face_encoding, lines 87-100, and
    FaceRecognitionEngine.get_face_encoding_from_cv2, lines 55-85) -/

/-- cv2.calcHist([face_image], [0], None, [256], [0, 256]) on an 8-bit
single-channel image: 256 unit-width bins, bin i holding the number of
pixels of intensity i.  The image is a list of rows of intensities. -/
def calcHist (face_image : List (List ℕ)) : List ℝ :=
  (List.range 256).map (fun i => ((face_image.flatten.count i : ℕ) : ℝ))

/-- cv2.normalize(hist, hist) with the default NORM_L2 and alpha = 1:
scale the vector to unit Euclidean norm. -/
noncomputable def l2normalize (v : List ℝ) : List ℝ :=
  v.map (fun x => x / l2norm v)

/-- FaceRecognitionEngine._create_face_encoding: concatenate the first
64 bins of the L2-normalised 256-bin intensity histogram with the first
64 values of the flattened HOG descriptor of the crop.  The cv2
HOGDescriptor((100,100),(20,20),(10,10),(10,10),9) computation is an
external library capability, passed in as the hog argument; for a
100x100 input it returns ((100-20)/10+1)^2 blocks x 4 cells x 9 bins
 = 2916 values. -/
noncomputable def _create_face_encoding (hog : List (List ℕ) → List ℝ)
    (face_image : List (List ℕ)) : Encoding :=
  (l2normalize (calcHist face_image)).take 64 ++ (hog face_image).take 64

/-- C4: every encoding produced by _create_face_encoding has exactly 128
elements, the first 64 being the first 64 bins of the L2-normalised
256-bin intensity histogram and the last 64 the first 64 HOG values;
the only fact used about the external HOG descriptor is that it yields
its 2916 values for the canonical 100x100 crop. -/
theorem create_face_encoding_spec (hog : List (List ℕ) → List ℝ)
    (face_image : List (List ℕ))
    (hhog : (hog face_image).length = 2916) :
    (_create_face_encoding hog face_image).length = 128 ∧
    _create_face_encoding hog face_image =
      (l2normalize (calcHist face_image)).take 64 ++ (hog face_image).take 64 ∧
    (calcHist face_image).length = 256 := by
  have hhist : (calcHist face_image).length = 256 := by
    simp [calcHist]
  refine ⟨?_, rfl, hhist⟩
  simp [_create_face_encoding, l2normalize, hhog, hhist]

/-- A constant HOG stub of the correct output size, for the witness. -/
def hogW : List (List ℕ) → List ℝ := fun _ => List.replicate 2916 0

/-- A black 100x100 crop, for the witness. -/
def imgW : List (List ℕ) := List.replicate 100 (List.replicate 100 0)

/-- C4 witness: the hypothesis on the HOG output length holds for the
concrete stub on a concrete 100x100 crop, and the encoding there has
128 elements. -/
theorem create_face_encoding_spec_witness :
    (hogW imgW).length = 2916 ∧
    ((_create_face_encoding hogW imgW).length = 128 ∧
      _create_face_encoding hogW imgW =
        (l2normalize (calcHist imgW)).take 64 ++ (hogW imgW).take 64 ∧
      (calcHist imgW).length = 256) :=
  ⟨by simp only [hogW, List.length_replicate],
    create_face_encoding_spec hogW imgW (by simp only [hogW, List.length_replicate])⟩

/-- A detected face rectangle (x, y, w, h), as returned by
detectMultiScale. -/
structure FaceRect where
  x : ℕ
  y : ℕ
  w : ℕ
  h : ℕ
deriving DecidableEq, Inhabited

/-- The sort key of the multi-face policy: f[2] * f[3]. -/
def FaceRect.area (r : FaceRect) : ℕ := r.w * r.h

/-- The comparison used by sorted(faces, key=lambda f: f[2]*f[3],
reverse=True): a comes no later than b when a.area >= b.area. -/
def faceGE (a b : FaceRect) : Prop := b.area ≤ a.area

instance : DecidableRel faceGE :=
  fun a b => inferInstanceAs (Decidable (b.area ≤ a.area))

instance : IsTotal FaceRect faceGE :=
  ⟨fun a b => (Nat.le_total b.area a.area).imp (fun h => h) (fun h => h)⟩

instance : IsTrans FaceRect faceGE :=
  ⟨fun _ _ _ hab hbc => le_trans hbc hab⟩

/-- Python's sorted is a stable sort; modelled by the stable insertion
sort on the reverse area order. -/
def sortFacesByAreaDesc (faces : List FaceRect) : List FaceRect :=
  List.insertionSort faceGE faces

/-- FaceRecognitionEngine.get_face_encoding_from_cv2: None frame gives
None; zero detected faces gives None; more than one detected face sorts
by area descending and takes the first; then the selected region is
cropped from the grayscale frame, resized to 100x100 and encoded.  The
detector (Haar cascade) and the crop-resize-encode pipeline on the
selected region are abstracted as the detect and encodeRegion
arguments. -/
def get_face_encoding_from_cv2 {Frame Enc : Type} (detect : Frame → List FaceRect)
    (encodeRegion : Frame → FaceRect → Enc) (frame : Option Frame) : Option Enc :=
  match frame with
  | none => none
  | some f =>
    let faces := detect f
    if faces.length = 0 then none
    else
      let faces2 := if faces.length > 1 then sortFacesByAreaDesc faces else faces
      some (encodeRegion f faces2.headI)

/-- C5: when the detector returns more than one face region, encoding
extraction operates on a detected region of maximal area (width times
height): the returned encoding is the encodeRegion output on a region
that belongs to the detected list and whose area is at least that of
every detected region. -/
theorem get_face_encoding_largest {Frame Enc : Type} (detect : Frame → List FaceRect)
    (encodeRegion : Frame → FaceRect → Enc) (f : Frame)
    (hmulti : (detect f).length > 1) :
    ∃ r, r ∈ detect f ∧ (∀ r2 ∈ detect f, r2.area ≤ r.area) ∧
      get_face_encoding_from_cv2 detect encodeRegion (some f) = some (encodeRegion f r) := by
  have hperm : (sortFacesByAreaDesc (detect f)).Perm (detect f) :=
    List.perm_insertionSort faceGE (detect f)
  have hsorted : List.Sorted faceGE (sortFacesByAreaDesc (detect f)) :=
    List.sorted_insertionSort faceGE (detect f)
  have hne : sortFacesByAreaDesc (detect f) ≠ [] := by
    intro hnil
    have := hperm.length_eq
    rw [hnil] at this
    simp at this
    omega
  obtain ⟨a, tl, hcons⟩ := List.exists_cons_of_ne_nil hne
  refine ⟨a, ?_, ?_, ?_⟩
  · exact hperm.subset (by rw [hcons]; exact List.mem_cons_self a tl)
  · intro r2 hr2
    have hr2s : r2 ∈ sortFacesByAreaDesc (detect f) := hperm.symm.subset hr2
    rw [hcons] at hr2s
    rcases List.mem_cons.1 hr2s with rfl | hr2t
    · exact le_refl _
    · rw [hcons] at hsorted
      exact List.rel_of_sorted_cons hsorted r2 hr2t
  · simp only [get_face_encoding_from_cv2]
    rw [if_neg (by omega), if_pos hmulti, hcons]
    rfl

/-- The detector stub for the C5 witness: two regions of areas 500 and
2000. -/
def detectW : ℕ → List FaceRect := fun _ => [⟨0, 0, 25, 20⟩, ⟨10, 10, 40, 50⟩]

/-- The encode stub for the C5 witness: report the selected region. -/
def encW : ℕ → FaceRect → FaceRect := fun _ r => r

/-- C5 witness: on a frame with detected regions of areas 500 and 2000,
extraction operates on a maximal-area region, and concretely on the
area-2000 region. -/
theorem get_face_encoding_largest_witness :
    (detectW 0).length > 1 ∧
    (∃ r, r ∈ detectW 0 ∧ (∀ r2 ∈ detectW 0, r2.area ≤ r.area) ∧
      get_face_encoding_from_cv2 detectW encW (some 0) = some (encW 0 r)) ∧
    get_face_encoding_from_cv2 detectW encW (some 0) = some ⟨10, 10, 40, 50⟩ ∧
    FaceRect.area ⟨0, 0, 25, 20⟩ = 500 ∧ FaceRect.area ⟨10, 10, 40, 50⟩ = 2000 :=
  ⟨by decide, get_face_encoding_largest detectW encW 0 (by decide),
    by decide, by decide, by decide⟩

/-! ## Batch processing (src/core/batch_processor.py)

BatchProcessor.run submits every image path to a thread pool up front,
then iterates concurrent.futures.as_completed, so the loop sees items in
an arbitrary completion order: the model takes that order as the
completions argument (a rearrangement of the submitted items, or fewer
when the overall timeout cuts the wait short).  Per item, the loop
checks self.is_cancelled first and breaks if set — the flag, once set by
cancel(), stays true — modelled by the cancel argument giving the flag
value read at each iteration.  A TimeoutError raised by as_completed
after the listed completions escapes to the outer try, which emits
error_occurred and no summary (run_error); every other path, including
the post-break one, builds the summary dict and emits batch_completed.
The summary's timestamp field (wall clock) is omitted.  Each item's
outcome is determined by _process_single_image, which catches every
exception and returns a success/failure dict, so the per-future
except-branch inside run is unreachable and the model gives it no case. -/

/-- The behaviour of one image path when processed: the outcome of
validate_image_file (which may itself raise) and, if validation passes,
the outcome of face_engine.search_criminal_database (a list of matches,
or an exception carrying its message). -/
structure ItemBehavior (Match : Type) where
  validate : Except String (Bool × String)
  search : Except String (List Match)

instance {ε α : Type} [DecidableEq ε] [DecidableEq α] : DecidableEq (Except ε α) := fun a b =>
  match a, b with
  | .error e1, .error e2 => decidable_of_iff (e1 = e2) (by simp)
  | .error _, .ok _ => isFalse (by simp)
  | .ok _, .error _ => isFalse (by simp)
  | .ok a1, .ok a2 => decidable_of_iff (a1 = a2) (by simp)

instance {Match : Type} [DecidableEq Match] : DecidableEq (ItemBehavior Match) := fun a b =>
  match a, b with
  | ⟨v1, s1⟩, ⟨v2, s2⟩ => decidable_of_iff (v1 = v2 ∧ s1 = s2) (by simp)

/-- The dict returned by _process_single_image: success with matches, or
failure with an error string. -/
inductive ProcResult (Match : Type) where
  | ok (found : List Match)
  | fail (error : String)
deriving DecidableEq

/-- BatchProcessor._process_single_image (lines 133-163): validate, then
search; any exception is caught and becomes a failure dict whose error
is str(e); an invalid image becomes the failure "Invalid image: "
followed by the validator's message. -/
def _process_single_image {Match : Type} (b : ItemBehavior Match) : ProcResult Match :=
  match b.validate with
  | .error e => .fail e
  | .ok (false, message) => .fail ("Invalid image: " ++ message)
  | .ok (true, _) =>
    match b.search with
    | .error e => .fail e
    | .ok found => .ok found

/-- One entry of self.results: the success dict (image_path, matches) or
the failure dict (image_path, error). -/
inductive ResultEntry (Match : Type) where
  | success (image_path : String) (found : List Match)
  | failure (image_path : String) (error : String)
deriving DecidableEq

/-- The mutable state of the as_completed loop: the four counters and
the accumulated self.results list. -/
structure RunState (Match : Type) where
  processed : ℕ
  successful : ℕ
  failed : ℕ
  total_matches : ℕ
  results : List (ResultEntry Match)

instance {Match : Type} [DecidableEq Match] : DecidableEq (RunState Match) := fun a b =>
  match a, b with
  | ⟨p1, u1, f1, t1, r1⟩, ⟨p2, u2, f2, t2, r2⟩ =>
    decidable_of_iff (p1 = p2 ∧ u1 = u2 ∧ f1 = f2 ∧ t1 = t2 ∧ r1 = r2) (by simp)

/-- The results entry an item contributes, as a function of its
behaviour. -/
def resultEntryOf {Match : Type} (c : String × ItemBehavior Match) : ResultEntry Match :=
  match _process_single_image c.2 with
  | .ok ms => .success c.1 ms
  | .fail e => .failure c.1 e

/-- One iteration of the as_completed loop body (lines 58-113):
increment processed, then record either the success (counting its
matches) or the failure. -/
def stepItem {Match : Type} (s : RunState Match) (c : String × ItemBehavior Match) :
    RunState Match :=
  match _process_single_image c.2 with
  | .ok ms =>
    ⟨s.processed + 1, s.successful + 1, s.failed, s.total_matches + ms.length,
      s.results ++ [.success c.1 ms]⟩
  | .fail e =>
    ⟨s.processed + 1, s.successful, s.failed + 1, s.total_matches,
      s.results ++ [.failure c.1 e]⟩

/-- The as_completed loop: at iteration i, read the cancellation flag
and break when set (returning true), otherwise handle the next
completed item. -/
def runLoop {Match : Type} (cancel : ℕ → Bool) :
    List (String × ItemBehavior Match) → ℕ → RunState Match → RunState Match × Bool
  | [], _, s => (s, false)
  | c :: rest, i, s =>
    if cancel i then (s, true)
    else runLoop cancel rest (i + 1) (stepItem s c)

/-- The summary dict emitted through batch_completed (lines 116-124),
minus the wall-clock timestamp. -/
structure Summary (Match : Type) where
  total : ℕ
  processed : ℕ
  successful : ℕ
  failed : ℕ
  total_matches : ℕ
  results : List (ResultEntry Match)

instance {Match : Type} [DecidableEq Match] : DecidableEq (Summary Match) := fun a b =>
  match a, b with
  | ⟨l1, p1, u1, f1, t1, r1⟩, ⟨l2, p2, u2, f2, t2, r2⟩ =>
    decidable_of_iff (l1 = l2 ∧ p1 = p2 ∧ u1 = u2 ∧ f1 = f2 ∧ t1 = t2 ∧ r1 = r2) (by simp)

/-- The observable outcome of BatchProcessor.run: either the
batch_completed signal with its summary, or the outer-except path that
emits error_occurred and never a summary. -/
inductive RunResult (Match : Type) where
  | batch_completed (summary : Summary Match)
  | run_error (message : String)
deriving DecidableEq

/-- Assemble the summary dict from the loop state. -/
def mkSummary {Match : Type} (total : ℕ) (s : RunState Match) : Summary Match :=
  ⟨total, s.processed, s.successful, s.failed, s.total_matches, s.results⟩

/-- BatchProcessor.run (lines 33-131).  total is len(self.image_paths);
the loop runs over the completion order; a break caused by the
cancellation flag still falls through to the summary emission, while a
pool timeout after the listed completions raises and reaches the outer
except instead. -/
def run {Match : Type} (image_paths completions : List (String × ItemBehavior Match))
    (timedOut : Bool) (cancel : ℕ → Bool) : RunResult Match :=
  match runLoop cancel completions 0 ⟨0, 0, 0, 0, []⟩ with
  | (s, true) => .batch_completed (mkSummary image_paths.length s)
  | (s, false) =>
    if timedOut then .run_error "TimeoutError"
    else .batch_completed (mkSummary image_paths.length s)

theorem stepItem_processed {Match : Type} (s : RunState Match)
    (c : String × ItemBehavior Match) :
    (stepItem s c).processed = s.processed + 1 := by
  cases hp : _process_single_image c.2 <;> simp [stepItem, hp]

theorem stepItem_balance {Match : Type} (s : RunState Match)
    (c : String × ItemBehavior Match) :
    (stepItem s c).successful + (stepItem s c).failed = s.successful + s.failed + 1 := by
  cases hp : _process_single_image c.2 <;> simp [stepItem, hp] <;> omega

theorem stepItem_results {Match : Type} (s : RunState Match)
    (c : String × ItemBehavior Match) :
    (stepItem s c).results = s.results ++ [resultEntryOf c] := by
  cases hp : _process_single_image c.2 <;> simp [stepItem, resultEntryOf, hp]

theorem foldl_stepItem_processed {Match : Type} :
    ∀ (l : List (String × ItemBehavior Match)) (s : RunState Match),
      (l.foldl stepItem s).processed = s.processed + l.length := by
  intro l
  induction l with
  | nil => intro s; simp
  | cons c rest ih =>
    intro s
    simp only [List.foldl, List.length_cons]
    rw [ih (stepItem s c), stepItem_processed]
    omega

theorem foldl_stepItem_balance {Match : Type} :
    ∀ (l : List (String × ItemBehavior Match)) (s : RunState Match),
      (l.foldl stepItem s).successful + (l.foldl stepItem s).failed =
        s.successful + s.failed + l.length := by
  intro l
  induction l with
  | nil => intro s; simp
  | cons c rest ih =>
    intro s
    simp only [List.foldl, List.length_cons]
    rw [ih (stepItem s c), stepItem_balance]
    omega

theorem foldl_stepItem_results {Match : Type} :
    ∀ (l : List (String × ItemBehavior Match)) (s : RunState Match),
      (l.foldl stepItem s).results = s.results ++ l.map resultEntryOf := by
  intro l
  induction l with
  | nil => intro s; simp
  | cons c rest ih =>
    intro s
    simp only [List.foldl, List.map_cons]
    rw [ih (stepItem s c), stepItem_results]
    simp

theorem runLoop_no_cancel {Match : Type} (cancel : ℕ → Bool)
    (hc : ∀ i, cancel i = false) :
    ∀ (l : List (String × ItemBehavior Match)) (i : ℕ) (s : RunState Match),
      runLoop cancel l i s = (l.foldl stepItem s, false) := by
  intro l
  induction l with
  | nil => intro i s; rfl
  | cons c rest ih =>
    intro i s
    simp only [runLoop, hc i, List.foldl]
    exact ih (i + 1) (stepItem s c)

/-- The loop always handles a prefix of the completion order: it stops
after some n items with n at most the list length, and when the
cancellation flag holds from index k on, the loop starting at index i
handles at most max i k - i of them. -/
theorem runLoop_take {Match : Type} (cancel : ℕ → Bool) :
    ∀ (l : List (String × ItemBehavior Match)) (i : ℕ) (s : RunState Match),
      ∃ n, n ≤ l.length ∧
        (runLoop cancel l i s).1 = (l.take n).foldl stepItem s ∧
        ∀ k, (∀ j, k ≤ j → cancel j = true) → i + n ≤ max i k := by
  intro l
  induction l with
  | nil =>
    intro i s
    exact ⟨0, by simp, rfl, fun k _ => by simp⟩
  | cons c rest ih =>
    intro i s
    by_cases hci : cancel i = true
    · refine ⟨0, by simp, by simp [runLoop, hci], ?_⟩
      intro k _
      simp
    · have hfalse : cancel i = false := by
        revert hci
        cases cancel i <;> simp
      obtain ⟨n, hn, heq, hbound⟩ := ih (i + 1) (stepItem s c)
      refine ⟨n + 1, by simpa using hn, ?_, ?_⟩
      · rw [List.take_succ_cons, List.foldl_cons, ← heq]
        simp [runLoop, hfalse]
      · intro k hk
        have hik : ¬ k ≤ i := fun hki => by
          rw [hk i hki] at hfalse
          exact Bool.true_eq_false.mp hfalse |>.elim
        have h2 := hbound k hk
        have hm2 : max (i + 1) k = k := max_eq_right (by omega)
        rw [hm2] at h2
        have hm : max i k = k := max_eq_right (by omega)
        rw [hm]
        omega

/-- With no pool timeout, run always emits batch_completed with the
summary built from the loop's final state — including after a
cancellation break. -/
theorem run_no_timeout {Match : Type}
    (image_paths completions : List (String × ItemBehavior Match))
    (cancel : ℕ → Bool) :
    run image_paths completions false cancel =
      .batch_completed (mkSummary image_paths.length
        (runLoop cancel completions 0 ⟨0, 0, 0, 0, []⟩).1) := by
  cases hrl : runLoop cancel completions 0 ⟨0, 0, 0, 0, []⟩ with
  | mk s b => cases b <;> simp [run, hrl]

/-- C9: in every summary a batch run emits — whatever the per-item
outcomes, the completion order, a mid-run cancellation or a pool
timeout — the counters satisfy processed = successful + failed, and
total equals the number of input image paths. -/
theorem run_summary_invariant {Match : Type}
    (image_paths completions : List (String × ItemBehavior Match))
    (timedOut : Bool) (cancel : ℕ → Bool) (summ : Summary Match)
    (h : run image_paths completions timedOut cancel = .batch_completed summ) :
    summ.processed = summ.successful + summ.failed ∧
    summ.total = image_paths.length := by
  cases hrl : runLoop cancel completions 0 ⟨0, 0, 0, 0, []⟩ with
  | mk s b =>
    have hsum : summ = mkSummary image_paths.length s := by
      cases b
      · cases timedOut
        · simp [run, hrl] at h
          exact h.symm
        · simp [run, hrl] at h
      · simp [run, hrl] at h
        exact h.symm
    obtain ⟨n, hn, heq, _⟩ := runLoop_take cancel completions 0 ⟨0, 0, 0, 0, []⟩
    rw [hrl] at heq
    subst hsum
    have h1 := foldl_stepItem_processed (completions.take n) (⟨0, 0, 0, 0, []⟩ : RunState Match)
    have h2 := foldl_stepItem_balance (completions.take n) (⟨0, 0, 0, 0, []⟩ : RunState Match)
    simp only at h1 h2 heq
    constructor
    · simp only [mkSummary]
      rw [heq]
      omega
    · simp [mkSummary]

/-- The always-false cancellation flag of an uncancelled run. -/
def noCancel : ℕ → Bool := fun _ => false

/-- A path that validates and searches cleanly with no matches. -/
def behValid : ItemBehavior ℕ := ⟨.ok (true, "Valid image"), .ok []⟩

/-- A corrupt image path: validate_image_file returns
(False, "Invalid or corrupted image file"). -/
def behInvalid : ItemBehavior ℕ := ⟨.ok (false, "Invalid or corrupted image file"), .ok []⟩

/-- A path whose search raises an exception carrying the empty
message (str(e) = ""). -/
def behRaiseEmpty : ItemBehavior ℕ := ⟨.ok (true, "Valid image"), .error ""⟩

/-- A path whose search finds the single match 1. -/
def behMatch1 : ItemBehavior ℕ := ⟨.ok (true, "Valid image"), .ok [1]⟩

/-- A path whose search finds the single match 2. -/
def behMatch2 : ItemBehavior ℕ := ⟨.ok (true, "Valid image"), .ok [2]⟩

/-- Five images of which exactly the third is invalid. -/
def items5 : List (String × ItemBehavior ℕ) :=
  [("i1.jpg", behValid), ("i2.jpg", behValid), ("i3.jpg", behInvalid),
   ("i4.jpg", behValid), ("i5.jpg", behValid)]

/-- The summary of running items5 uncancelled. -/
def sum5 : Summary ℕ :=
  ⟨5, 5, 4, 1, 0,
   [.success "i1.jpg" [], .success "i2.jpg" [],
    .failure "i3.jpg" "Invalid image: Invalid or corrupted image file",
    .success "i4.jpg" [], .success "i5.jpg" []]⟩

/-- C9 witness: the hypothesis of run_summary_invariant holds for the
concrete 5-image run, whose summary indeed satisfies the counter
invariants. -/
theorem run_summary_invariant_witness :
    run items5 items5 false noCancel = .batch_completed sum5 ∧
    (sum5.processed = sum5.successful + sum5.failed ∧
      sum5.total = items5.length) :=
  ⟨rfl, run_summary_invariant items5 items5 false noCancel sum5 rfl⟩

/-- Two images of which the first raises an exception with an empty
message. -/
def itemsExn : List (String × ItemBehavior ℕ) :=
  [("a.jpg", behRaiseEmpty), ("b.jpg", behValid)]

/-- C6 counterexample: an exception whose str() is empty is caught and
recorded as the item's failure, and the run continues and completes —
but the recorded error message is empty, refuting the claimed non-empty
error message. -/
theorem batch_error_message_counterexample :
    run itemsExn itemsExn false noCancel = .batch_completed
      ⟨2, 2, 1, 1, 0, [.failure "a.jpg" "", .success "b.jpg" []]⟩ ∧
    ("" : String).length = 0 :=
  ⟨rfl, rfl⟩

/-- C6 amended: in an uncancelled, untimed-out run, every item is
processed regardless of individual failures (the run completes and
emits its summary covering all completed items), an exception during
one item is caught at the per-item boundary and recorded as that item's
failure carrying the exception's message — which is non-empty exactly
when the exception's own message is, while a validation failure always
carries the non-empty prefix "Invalid image: ". -/
theorem batch_failure_isolation {Match : Type}
    (image_paths completions : List (String × ItemBehavior Match))
    (cancel : ℕ → Bool) (hc : ∀ i, cancel i = false) :
    ∃ summ, run image_paths completions false cancel = .batch_completed summ ∧
      summ.total = image_paths.length ∧
      summ.processed = completions.length ∧
      summ.results = completions.map resultEntryOf ∧
      (∀ c ∈ completions, ∀ e, c.2.validate = .error e →
        resultEntryOf c = .failure c.1 e) ∧
      (∀ c ∈ completions, ∀ v e, c.2.validate = .ok (true, v) →
        c.2.search = .error e → resultEntryOf c = .failure c.1 e) ∧
      (∀ c ∈ completions, ∀ m, c.2.validate = .ok (false, m) →
        resultEntryOf c = .failure c.1 ("Invalid image: " ++ m)) := by
  have hfold : (runLoop cancel completions 0 ⟨0, 0, 0, 0, []⟩).1 =
      completions.foldl stepItem ⟨0, 0, 0, 0, []⟩ := by
    rw [runLoop_no_cancel cancel hc]
  refine ⟨_, run_no_timeout image_paths completions cancel, rfl, ?_, ?_, ?_, ?_, ?_⟩
  · simp only [mkSummary]
    rw [hfold, foldl_stepItem_processed]
    simp
  · simp only [mkSummary]
    rw [hfold, foldl_stepItem_results]
    simp
  · intro c _ e hv
    simp [resultEntryOf, _process_single_image, hv]
  · intro c _ v e hv hs
    simp [resultEntryOf, _process_single_image, hv, hs]
  · intro c _ m hv
    simp [resultEntryOf, _process_single_image, hv]

/-- C6 witness: the amended statement at the concrete 5-image batch
with exactly one invalid image: the run completes with total 5,
successful 4, failed 1, and the failed item carries the non-empty
message of its validation failure. -/
theorem batch_failure_isolation_witness :
    (∀ i, noCancel i = false) ∧
    (∃ summ, run items5 items5 false noCancel = .batch_completed summ ∧
      summ.total = items5.length ∧
      summ.processed = items5.length ∧
      summ.results = items5.map resultEntryOf ∧
      (∀ c ∈ items5, ∀ e, c.2.validate = .error e →
        resultEntryOf c = .failure c.1 e) ∧
      (∀ c ∈ items5, ∀ v e, c.2.validate = .ok (true, v) →
        c.2.search = .error e → resultEntryOf c = .failure c.1 e) ∧
      (∀ c ∈ items5, ∀ m, c.2.validate = .ok (false, m) →
        resultEntryOf c = .failure c.1 ("Invalid image: " ++ m))) ∧
    run items5 items5 false noCancel = .batch_completed sum5 ∧
    sum5.total = 5 ∧ sum5.successful = 4 ∧ sum5.failed = 1 ∧
    ("Invalid image: Invalid or corrupted image file" : String).length ≠ 0 :=
  ⟨fun _ => rfl, batch_failure_isolation items5 items5 noCancel (fun _ => rfl),
    rfl, rfl, rfl, rfl, by decide⟩

/-- The cancellation flag of a run cancelled after two items were
handled: false at iterations 0 and 1, true from iteration 2 on. -/
def cancelAt2 : ℕ → Bool := fun i => decide (2 ≤ i)

/-- C7 counterexample: cancelling after 2 of 5 items does stop further
collection (processed = 2), but the run does not end in a distinct
Cancelled state: the break falls through to the very same
batch_completed summary emission as a normal run, so the run ends
Completed, refuting "terminates in the Cancelled state and never in
the Completed state". -/
theorem batch_cancelled_still_completed_counterexample :
    cancelAt2 1 = false ∧ cancelAt2 2 = true ∧
    run items5 items5 false cancelAt2 = .batch_completed
      ⟨5, 2, 2, 0, 0, [.success "i1.jpg" [], .success "i2.jpg" []]⟩ :=
  ⟨rfl, rfl, rfl⟩

/-- C7 amended: once the cancellation flag is set (true from iteration
k on), no further completed items are collected: the loop exits early
and the summary reflects only the items handled before the flag took
effect (processed at most k and at most the number of completions, and
the reported results are exactly the first processed completions);
however the run still emits the ordinary completion summary — the code
has no distinct Cancelled terminal state. -/
theorem batch_cancel_truncates {Match : Type}
    (image_paths completions : List (String × ItemBehavior Match))
    (cancel : ℕ → Bool) (k : ℕ) (hk : ∀ j, k ≤ j → cancel j = true) :
    ∃ summ, run image_paths completions false cancel = .batch_completed summ ∧
      summ.processed ≤ k ∧ summ.processed ≤ completions.length ∧
      summ.results = (completions.take summ.processed).map resultEntryOf ∧
      summ.total = image_paths.length := by
  obtain ⟨n, hn, heq, hbound⟩ := runLoop_take cancel completions 0 ⟨0, 0, 0, 0, []⟩
  have hnk : n ≤ k := by
    have h2 := hbound k hk
    simpa using h2
  have hproc : (mkSummary image_paths.length
      (runLoop cancel completions 0 ⟨0, 0, 0, 0, []⟩).1).processed = n := by
    simp only [mkSummary]
    rw [heq, foldl_stepItem_processed]
    simp [List.length_take, Nat.min_eq_left hn]
  refine ⟨_, run_no_timeout image_paths completions cancel, ?_, ?_, ?_, rfl⟩
  · rw [hproc]
    exact hnk
  · rw [hproc]
    exact hn
  · rw [hproc]
    simp only [mkSummary]
    rw [heq, foldl_stepItem_results]
    simp

/-- C7 witness: the amended statement at the concrete 5-image run with
the flag set from iteration 2 on. -/
theorem batch_cancel_truncates_witness :
    (∀ j, 2 ≤ j → cancelAt2 j = true) ∧
    (∃ summ, run items5 items5 false cancelAt2 = .batch_completed summ ∧
      summ.processed ≤ 2 ∧ summ.processed ≤ items5.length ∧
      summ.results = (items5.take summ.processed).map resultEntryOf ∧
      summ.total = items5.length) :=
  ⟨fun _ hj => decide_eq_true hj,
    batch_cancel_truncates items5 items5 cancelAt2 2 (fun _ hj => decide_eq_true hj)⟩

/-- Two images submitted in the order A then B. -/
def submitAB : List (String × ItemBehavior ℕ) :=
  [("A.jpg", behMatch1), ("B.jpg", behMatch2)]

/-- The same two images completing in the order B then A. -/
def completeBA : List (String × ItemBehavior ℕ) :=
  [("B.jpg", behMatch2), ("A.jpg", behMatch1)]

/-- C8 counterexample: when the workers complete B before A, the
summary lists B's entry first — the per-item results appear in
completion order, not in the original submission order, refuting the
claimed stable submission-order report. -/
theorem batch_results_order_counterexample :
    completeBA.Perm submitAB ∧
    run submitAB completeBA false noCancel = .batch_completed
      ⟨2, 2, 2, 0, 2, [.success "B.jpg" [2], .success "A.jpg" [1]]⟩ ∧
    [ResultEntry.success "B.jpg" [2], ResultEntry.success "A.jpg" [1]] ≠
      submitAB.map resultEntryOf := by
  refine ⟨?_, rfl, ?_⟩
  · exact List.Perm.swap _ _ _
  · decide

/-- C8 amended: in an uncancelled, untimed-out run the final summary
reports the per-item results exactly in the order the workers completed
them (the as_completed order), which need not be the submission
order. -/
theorem batch_results_completion_order {Match : Type}
    (image_paths completions : List (String × ItemBehavior Match))
    (cancel : ℕ → Bool) (hc : ∀ i, cancel i = false) :
    ∃ summ, run image_paths completions false cancel = .batch_completed summ ∧
      summ.results = completions.map resultEntryOf := by
  refine ⟨_, run_no_timeout image_paths completions cancel, ?_⟩
  simp only [mkSummary]
  rw [runLoop_no_cancel cancel hc]
  rw [show ((completions.foldl stepItem ⟨0, 0, 0, 0, []⟩, false) :
    RunState Match × Bool).1 = completions.foldl stepItem ⟨0, 0, 0, 0, []⟩ from rfl]
  rw [foldl_stepItem_results]
  simp

/-- C8 witness: the amended statement at the concrete two-image run
that completes in reversed order. -/
theorem batch_results_completion_order_witness :
    (∀ i, noCancel i = false) ∧
    (∃ summ, run submitAB completeBA false noCancel = .batch_completed summ ∧
      summ.results = completeBA.map resultEntryOf) :=
  ⟨fun _ => rfl,
    batch_results_completion_order submitAB completeBA noCancel (fun _ => rfl)⟩

end FFR
